import Mathlib

/-!
Verification development for merge-core-phrases.py.

The script reads eight fixed JSON files in order, parses each with
json.load, appends each parsed document to the list merged, then writes
merged with json.dump(..., ensure_ascii=False, indent=2) to
core-phrase-list-all.json and prints a one-line summary.

We embed the script shallowly: JSON values are the inductive type Json;
the filesystem is a function from filenames to optional contents; the
run produces a result together with an ordered trace of write and print
events, so that statements about what is written, and when, are direct.

The Python json library is modelled by parseJson (a recursive-descent
parser over the character list, fuel-bounded) and dumpVal (the
serializer for ensure_ascii=False, indent=2).  The model covers null,
booleans, integer numerals, strings with the standard escape sequences,
arrays and objects; float literals, NaN and Infinity forms, and the
leading-zero rejection rule of the library are outside the model, and
duplicate object keys are kept in order rather than deduplicated.  The
repository data (lists of phrase strings) lies entirely inside the
modelled fragment.
-/

/-- A JSON value as produced by parsing: null, booleans, (integer)
numbers, strings, arrays and objects. -/
inductive Json where
  | null : Json
  | bool : Bool → Json
  | num : Int → Json
  | str : String → Json
  | arr : List Json → Json
  | obj : List (String × Json) → Json
deriving Repr

/-- JSON insignificant whitespace characters. -/
def isWs (c : Char) : Bool :=
  c = ' ' || c = '\t' || c = '\n' || c = '\r'

/-- Drop leading JSON whitespace. -/
def skipWs : List Char → List Char
  | [] => []
  | c :: cs => if isWs c then skipWs cs else c :: cs

/-- Decimal digit test. -/
def isDigit (c : Char) : Bool :=
  '0' ≤ c && c ≤ '9'

/-- Value of a decimal digit character. -/
def digitVal (c : Char) : Nat :=
  c.toNat - '0'.toNat

/-- Read a run of decimal digits, accumulating their value. -/
def parseNatAux : List Char → Nat → Nat × List Char
  | [], acc => (acc, [])
  | c :: cs, acc =>
    if isDigit c then parseNatAux cs (acc * 10 + digitVal c) else (acc, c :: cs)

/-- Read an integer numeral: an optional minus sign then at least one
digit. -/
def parseIntTok : List Char → Option (Int × List Char)
  | '-' :: c :: cs =>
    if isDigit c then
      let p := parseNatAux cs (digitVal c)
      some (-(p.1 : Int), p.2)
    else none
  | c :: cs =>
    if isDigit c then
      let p := parseNatAux cs (digitVal c)
      some ((p.1 : Int), p.2)
    else none
  | [] => none

/-- Value of a hexadecimal digit character, if it is one: the ranges
0-9, a-f and A-F of code points, in either case. -/
def hexVal (c : Char) : Option Nat :=
  let n := c.toNat
  if 48 ≤ n ∧ n ≤ 57 then some (n - 48)
  else if 97 ≤ n ∧ n ≤ 102 then some (n - 87)
  else if 65 ≤ n ∧ n ≤ 70 then some (n - 55)
  else none

/-- Prepend a character to the first component of a partial string-parse
result. -/
def mapCons (c : Char) : Option (List Char × List Char) → Option (List Char × List Char)
  | none => none
  | some (cs, rest) => some (c :: cs, rest)

/-- Read the body of a JSON string after the opening quote, handling the
standard escape sequences, up to and including the closing quote.
Unescaped control characters are rejected, as json.load does in its
default strict mode. -/
def parseStringBody : List Char → Option (List Char × List Char)
  | [] => none
  | '"' :: rest => some ([], rest)
  | '\\' :: '"' :: rest => mapCons '"' (parseStringBody rest)
  | '\\' :: '\\' :: rest => mapCons '\\' (parseStringBody rest)
  | '\\' :: '/' :: rest => mapCons '/' (parseStringBody rest)
  | '\\' :: 'b' :: rest => mapCons (Char.ofNat 8) (parseStringBody rest)
  | '\\' :: 'f' :: rest => mapCons (Char.ofNat 12) (parseStringBody rest)
  | '\\' :: 'n' :: rest => mapCons '\n' (parseStringBody rest)
  | '\\' :: 'r' :: rest => mapCons '\r' (parseStringBody rest)
  | '\\' :: 't' :: rest => mapCons '\t' (parseStringBody rest)
  | '\\' :: 'u' :: h1 :: h2 :: h3 :: h4 :: rest =>
    match hexVal h1, hexVal h2, hexVal h3, hexVal h4 with
    | some a, some b, some c, some d =>
      let n := ((a * 16 + b) * 16 + c) * 16 + d
      if n < 55296 || 57343 < n then mapCons (Char.ofNat n) (parseStringBody rest)
      else none
    | _, _, _, _ => none
  | ['\\'] => none
  | '\\' :: _ :: _ => none
  | c :: rest =>
    if c.toNat < 32 then none else mapCons c (parseStringBody rest)

mutual

/-- Parse one JSON value after skipping leading whitespace, returning it
with the unconsumed remainder.  The fuel argument bounds recursion
depth; parseJson supplies enough fuel for any input of the given
length. -/
def parseVal : Nat → List Char → Option (Json × List Char)
  | 0, _ => none
  | fuel + 1, cs =>
    match skipWs cs with
    | [] => none
    | 'n' :: 'u' :: 'l' :: 'l' :: rest => some (Json.null, rest)
    | 't' :: 'r' :: 'u' :: 'e' :: rest => some (Json.bool true, rest)
    | 'f' :: 'a' :: 'l' :: 's' :: 'e' :: rest => some (Json.bool false, rest)
    | '"' :: rest =>
      match parseStringBody rest with
      | some (body, rest2) => some (Json.str (String.mk body), rest2)
      | none => none
    | '[' :: rest =>
      match skipWs rest with
      | ']' :: rest2 => some (Json.arr [], rest2)
      | rest2 =>
        match parseItems fuel rest2 with
        | some (vs, rest3) => some (Json.arr vs, rest3)
        | none => none
    | '\x7b' :: rest =>
      match skipWs rest with
      | '\x7d' :: rest2 => some (Json.obj [], rest2)
      | rest2 =>
        match parseMembers fuel rest2 with
        | some (ms, rest3) => some (Json.obj ms, rest3)
        | none => none
    | c :: rest =>
      if c = '-' || isDigit c then
        match parseIntTok (c :: rest) with
        | some (n, rest2) => some (Json.num n, rest2)
        | none => none
      else none

/-- Parse the comma-separated items of a non-empty array, up to and
including the closing bracket. -/
def parseItems : Nat → List Char → Option (List Json × List Char)
  | 0, _ => none
  | fuel + 1, cs =>
    match parseVal fuel cs with
    | none => none
    | some (v, rest) =>
      match skipWs rest with
      | ',' :: rest2 =>
        match parseItems fuel rest2 with
        | some (vs, rest3) => some (v :: vs, rest3)
        | none => none
      | ']' :: rest2 => some ([v], rest2)
      | _ => none

/-- Parse the comma-separated members of a non-empty object, up to and
including the closing brace. -/
def parseMembers : Nat → List Char → Option (List (String × Json) × List Char)
  | 0, _ => none
  | fuel + 1, cs =>
    match skipWs cs with
    | '"' :: rest =>
      match parseStringBody rest with
      | none => none
      | some (key, rest2) =>
        match skipWs rest2 with
        | ':' :: rest3 =>
          match parseVal fuel rest3 with
          | none => none
          | some (v, rest4) =>
            match skipWs rest4 with
            | ',' :: rest5 =>
              match parseMembers fuel rest5 with
              | some (ms, rest6) => some ((String.mk key, v) :: ms, rest6)
              | none => none
            | '\x7d' :: rest5 => some ([(String.mk key, v)], rest5)
            | _ => none
        | _ => none
    | _ => none

end

/-- Model of json.load applied to the full text of a file: parse one
JSON value and require that only whitespace follows it.  Returns none
exactly when the library would raise a decode error. -/
def parseJson (s : String) : Option Json :=
  match parseVal (s.length + 2) s.data with
  | some (v, rest) => if skipWs rest = [] then some v else none
  | none => none

/-- Lowercase hexadecimal digit character. -/
def hexDigit (n : Nat) : Char :=
  if n < 10 then Char.ofNat ('0'.toNat + n) else Char.ofNat ('a'.toNat + n - 10)

/-- Four lowercase hexadecimal digits, as json.dump emits in a short
unicode escape. -/
def hex4 (n : Nat) : String :=
  String.mk [hexDigit (n / 4096 % 16), hexDigit (n / 256 % 16),
             hexDigit (n / 16 % 16), hexDigit (n % 16)]

/-- Escape one character the way json.dump with ensure_ascii=False
does: only the quote, the backslash and control characters are escaped;
every other character, multi-byte ones included, is emitted literally. -/
def escChar (c : Char) : String :=
  if c = '"' then "\\\""
  else if c = '\\' then "\\\\"
  else if c = '\n' then "\\n"
  else if c = '\r' then "\\r"
  else if c = '\t' then "\\t"
  else if c.toNat = 8 then "\\b"
  else if c.toNat = 12 then "\\f"
  else if c.toNat < 32 then "\\u" ++ hex4 c.toNat
  else String.singleton c

/-- Serialize a string with surrounding quotes, escaping per escChar. -/
def encodeString (s : String) : String :=
  "\"" ++ String.join (s.data.map escChar) ++ "\""

/-- Indentation prefix at a nesting level: two spaces per level, as
json.dump produces for indent=2. -/
def indentStr (lvl : Nat) : String :=
  String.mk (List.replicate (2 * lvl) ' ')

mutual

/-- Model of json.dump with ensure_ascii=False and indent=2: serialize
one JSON value at the given nesting level. -/
def dumpVal : Json → Nat → String
  | Json.null, _ => "null"
  | Json.bool true, _ => "true"
  | Json.bool false, _ => "false"
  | Json.num n, _ => toString n
  | Json.str s, _ => encodeString s
  | Json.arr [], _ => "[]"
  | Json.arr (v :: vs), lvl =>
    "[\n" ++ dumpItems (v :: vs) (lvl + 1) ++ "\n" ++ indentStr lvl ++ "]"
  | Json.obj [], _ => "\x7b\x7d"
  | Json.obj (m :: ms), lvl =>
    "\x7b\n" ++ dumpMembers (m :: ms) (lvl + 1) ++ "\n" ++ indentStr lvl ++ "\x7d"

/-- Serialize the items of a non-empty array, one per line at the given
level, separated by commas. -/
def dumpItems : List Json → Nat → String
  | [], _ => ""
  | [v], lvl => indentStr lvl ++ dumpVal v lvl
  | v :: v2 :: vs, lvl =>
    indentStr lvl ++ dumpVal v lvl ++ ",\n" ++ dumpItems (v2 :: vs) lvl

/-- Serialize the members of a non-empty object, one per line at the
given level, separated by commas, with a colon-space key separator. -/
def dumpMembers : List (String × Json) → Nat → String
  | [], _ => ""
  | [(k, v)], lvl => indentStr lvl ++ encodeString k ++ ": " ++ dumpVal v lvl
  | (k, v) :: m :: ms, lvl =>
    indentStr lvl ++ encodeString k ++ ": " ++ dumpVal v lvl ++ ",\n" ++
      dumpMembers (m :: ms) lvl

end

/-- The fixed list of input filenames, in order (lines 5-14 of the
script). -/
def files : List String :=
  ["core-phrase-list-01-request.json",
   "core-phrase-list-02-reject.json",
   "core-phrase-list-03-direct.json",
   "core-phrase-list-04-accept.json",
   "core-phrase-list-05-interact.json",
   "core-phrase-list-06-express.json",
   "core-phrase-list-07-comment.json",
   "core-phrase-list-08-ask.json"]

/-- The fixed output filename (line 24 of the script). -/
def output_file : String :=
  "core-phrase-list-all.json"

/-- The filesystem seen by one run: each filename maps to its contents,
or to none when it is missing. -/
def FS : Type :=
  String → Option String

/-- The two faults the script can hit while reading: a missing input
file (FileNotFoundError from open) or content that is not valid JSON
(JSONDecodeError from json.load).  Neither is caught. -/
inductive RunError where
  | notFound : String → RunError
  | parseError : String → RunError
deriving Repr, DecidableEq

/-- Lines 19-20 of the script for one file: open it, read it, parse it
as JSON; fail with notFound when it is missing and with parseError when
its content is not valid JSON. -/
def readParse (fs : FS) (file : String) : Except RunError Json :=
  match fs file with
  | none => Except.error (RunError.notFound file)
  | some s =>
    match parseJson s with
    | none => Except.error (RunError.parseError file)
    | some v => Except.ok v

/-- The loop of lines 16-21 over an arbitrary file list: read and parse
each file in order, appending each parsed document to the accumulator;
the first fault aborts the loop. -/
def mergedList (fs : FS) : List String → Except RunError (List Json)
  | [] => Except.ok []
  | f :: rest =>
    match readParse fs f with
    | Except.error e => Except.error e
    | Except.ok v =>
      match mergedList fs rest with
      | Except.error e => Except.error e
      | Except.ok vs => Except.ok (v :: vs)

/-- The accumulator merged after the loop over the fixed file list. -/
def merged (fs : FS) : Except RunError (List Json) :=
  mergedList fs files

/-- The observable effects of a run, in order: writing a file whole, and
printing a line to standard output. -/
inductive Event where
  | write : String → String → Event
  | print : String → Event
deriving Repr, DecidableEq

/-- The completion line of line 28 of the script. -/
def summaryLine : String :=
  "Merged " ++ toString files.length ++ " JSON files into " ++ output_file

/-- One whole run of the script: run the read-parse loop; on the first
fault stop with no effects; otherwise serialize the accumulator with
indent 2, write it to the output file, then print the summary line. -/
def run (fs : FS) : Except RunError (List Json) × List Event :=
  match merged fs with
  | Except.error e => (Except.error e, [])
  | Except.ok vs =>
    (Except.ok vs,
     [Event.write output_file (dumpVal (Json.arr vs) 0), Event.print summaryLine])

/-- Overwrite one file's contents, as opening it in mode w and writing
does. -/
def writeFile (fs : FS) (file content : String) : FS :=
  fun f => if f = file then some content else fs f

/-- Apply one event to the filesystem; printing does not touch it. -/
def applyEvent (fs : FS) : Event → FS
  | Event.write f c => writeFile fs f c
  | Event.print _ => fs

/-- Apply a trace of events to the filesystem, in order. -/
def applyEvents (fs : FS) (evs : List Event) : FS :=
  evs.foldl applyEvent fs

/-- A filesystem on which every file holds the empty JSON list. -/
def fsAllEmpty : FS :=
  fun _ => some "[]"

/-- A filesystem holding the eight one-letter inputs of the concrete
scenario in the spec, and nothing else. -/
def fsLetters : FS := fun f =>
  if f = "core-phrase-list-01-request.json" then some "[\"a\"]"
  else if f = "core-phrase-list-02-reject.json" then some "[\"b\"]"
  else if f = "core-phrase-list-03-direct.json" then some "[\"c\"]"
  else if f = "core-phrase-list-04-accept.json" then some "[\"d\"]"
  else if f = "core-phrase-list-05-interact.json" then some "[\"e\"]"
  else if f = "core-phrase-list-06-express.json" then some "[\"f\"]"
  else if f = "core-phrase-list-07-comment.json" then some "[\"g\"]"
  else if f = "core-phrase-list-08-ask.json" then some "[\"h\"]"
  else none

/-- The empty filesystem: every input file is missing. -/
def fsNone : FS :=
  fun _ => none

/-- A filesystem whose files all hold text that is not valid JSON. -/
def fsBadJson : FS :=
  fun _ => some "not json"

/-- A filesystem carrying JSON documents of assorted top-level shapes,
none of them a list of strings. -/
def fsMixed : FS := fun f =>
  if f = "core-phrase-list-01-request.json" then some "3"
  else if f = "core-phrase-list-02-reject.json" then some "null"
  else if f = "core-phrase-list-03-direct.json" then some "\x7b\"k\": true\x7d"
  else if f = "core-phrase-list-04-accept.json" then some "\"lone\""
  else if f = "core-phrase-list-05-interact.json" then some "[[1], 2]"
  else if f = "core-phrase-list-06-express.json" then some "false"
  else if f = "core-phrase-list-07-comment.json" then some "-7"
  else if f = "core-phrase-list-08-ask.json" then some "[]"
  else none

/-- The parsed documents of fsMixed, in file order. -/
def mixedVals : List Json :=
  [Json.num 3, Json.null, Json.obj [("k", Json.bool true)], Json.str "lone",
   Json.arr [Json.arr [Json.num 1], Json.num 2], Json.bool false,
   Json.num (-7), Json.arr []]

/-- A filesystem where one input file holds the empty list and every
other file a singleton list. -/
def fsOneEmpty : FS := fun f =>
  if f = "core-phrase-list-05-interact.json" then some "[]" else some "[\"p\"]"

/-- The item lists parsed from fsOneEmpty, in file order. -/
def lsOne : List (List Json) :=
  [[Json.str "p"], [Json.str "p"], [Json.str "p"], [Json.str "p"], [],
   [Json.str "p"], [Json.str "p"], [Json.str "p"]]

/-- Eight empty JSON arrays: the documents parsed from fsAllEmpty. -/
def emptyVals : List Json :=
  [Json.arr [], Json.arr [], Json.arr [], Json.arr [],
   Json.arr [], Json.arr [], Json.arr [], Json.arr []]


/-- The ok result of a run is the merged accumulator. -/
theorem run_fst (fs : FS) : (run fs).1 = merged fs := by
  unfold run
  cases merged fs <;> rfl

/-- When every file of the list reads and parses to the corresponding
value, the loop returns exactly those values in order. -/
theorem mergedList_of_forall₂ (fs : FS) {l : List String} {vs : List Json}
    (h : List.Forall₂ (fun f v => readParse fs f = Except.ok v) l vs) :
    mergedList fs l = Except.ok vs := by
  induction h with
  | nil => rfl
  | cons h₁ _ ih => simp [mergedList, h₁, ih]

/-- A faulting loop names a file of the list whose read-parse produced
that very fault. -/
theorem mergedList_error_mem (fs : FS) {l : List String} {e : RunError}
    (h : mergedList fs l = Except.error e) :
    ∃ f, f ∈ l ∧ readParse fs f = Except.error e := by
  induction l with
  | nil => simp [mergedList] at h
  | cons f rest ih =>
    unfold mergedList at h
    cases hr : readParse fs f with
    | error e1 =>
      rw [hr] at h
      simp only [Except.error.injEq] at h
      subst h
      exact ⟨f, List.mem_cons_self f rest, hr⟩
    | ok v =>
      rw [hr] at h
      cases hm : mergedList fs rest with
      | error e2 =>
        rw [hm] at h
        simp only [Except.error.injEq] at h
        subst h
        obtain ⟨g, hg, hgp⟩ := ih hm
        exact ⟨g, List.mem_cons_of_mem f hg, hgp⟩
      | ok vs =>
        rw [hm] at h
        simp at h

/-- When every file of the list reads and parses, the loop succeeds. -/
theorem mergedList_ok_of_forall (fs : FS) (l : List String)
    (h : ∀ f ∈ l, ∃ v, readParse fs f = Except.ok v) :
    ∃ vs, mergedList fs l = Except.ok vs := by
  induction l with
  | nil => exact ⟨[], rfl⟩
  | cons f rest ih =>
    obtain ⟨v, hv⟩ := h f (List.mem_cons_self f rest)
    obtain ⟨vs, hvs⟩ := ih (fun g hg => h g (List.mem_cons_of_mem f hg))
    exact ⟨v :: vs, by simp [mergedList, hv, hvs]⟩

/-- When some file of the list faults, the loop faults. -/
theorem mergedList_error_of_bad (fs : FS) {l : List String} {f : String} {e : RunError}
    (hmem : f ∈ l) (hbad : readParse fs f = Except.error e) :
    ∃ e2, mergedList fs l = Except.error e2 := by
  induction l with
  | nil => cases hmem
  | cons g rest ih =>
    cases hr : readParse fs g with
    | error e1 => exact ⟨e1, by simp [mergedList, hr]⟩
    | ok v =>
      rcases List.mem_cons.mp hmem with rfl | hmem2
      · simp [hr] at hbad
      · obtain ⟨e2, he2⟩ := ih hmem2
        exact ⟨e2, by simp [mergedList, hr, he2]⟩

/-- A read-parse fault is a notFound for a missing file or a parseError
for an unparseable one. -/
theorem readParse_error_cases (fs : FS) {f : String} {e : RunError}
    (h : readParse fs f = Except.error e) :
    (e = RunError.notFound f ∧ fs f = none) ∨
      (∃ s, e = RunError.parseError f ∧ fs f = some s ∧ parseJson s = none) := by
  cases hf : fs f with
  | none =>
    have hr : readParse fs f = Except.error (RunError.notFound f) := by
      simp only [readParse, hf]
    rw [hr] at h
    simp only [Except.error.injEq] at h
    exact Or.inl ⟨h.symm, rfl⟩
  | some s =>
    cases hp : parseJson s with
    | none =>
      have hr : readParse fs f = Except.error (RunError.parseError f) := by
        simp only [readParse, hf, hp]
      rw [hr] at h
      simp only [Except.error.injEq] at h
      exact Or.inr ⟨s, h.symm, rfl, hp⟩
    | some v =>
      have hr : readParse fs f = Except.ok v := by
        simp only [readParse, hf, hp]
      rw [hr] at h
      simp at h

/-- A missing file makes read-parse fault with notFound. -/
theorem readParse_error_of_none (fs : FS) {f : String} (h : fs f = none) :
    readParse fs f = Except.error (RunError.notFound f) := by
  simp only [readParse, h]

/-- Unparseable content makes read-parse fault with parseError. -/
theorem readParse_error_of_badparse (fs : FS) {f s : String}
    (h1 : fs f = some s) (h2 : parseJson s = none) :
    readParse fs f = Except.error (RunError.parseError f) := by
  simp only [readParse, h1, h2]

/-- Overwriting one file leaves the read-parse of every other file
unchanged. -/
theorem readParse_writeFile (fs : FS) {f g : String} (c : String) (hne : f ≠ g) :
    readParse (writeFile fs g c) f = readParse fs f := by
  unfold readParse writeFile
  simp [hne]

/-- Overwriting a file outside the list leaves the loop unchanged. -/
theorem mergedList_writeFile (fs : FS) {l : List String} {g : String} (c : String)
    (h : ∀ f ∈ l, f ≠ g) :
    mergedList (writeFile fs g c) l = mergedList fs l := by
  induction l with
  | nil => rfl
  | cons f rest ih =>
    unfold mergedList
    rw [readParse_writeFile fs c (h f (List.mem_cons_self f rest)),
        ih (fun f2 hf2 => h f2 (List.mem_cons_of_mem f hf2))]

/-- The output filename is not one of the eight input filenames. -/
theorem output_file_not_input : output_file ∉ files := by decide

/-- Overwriting the output file leaves the accumulator unchanged. -/
theorem merged_writeFile_output (fs : FS) (c : String) :
    merged (writeFile fs output_file c) = merged fs := by
  unfold merged
  exact mergedList_writeFile fs c (fun f hf heq => output_file_not_input (heq ▸ hf))

/-- Overwriting the output file leaves the whole run unchanged. -/
theorem run_writeFile_output (fs : FS) (c : String) :
    run (writeFile fs output_file c) = run fs := by
  unfold run
  rw [merged_writeFile_output]

/-- C1: when each of the eight input files holds valid JSON parsing to
the corresponding value, the run writes exactly the serialization of the
JSON array of those eight values: the array has exactly eight elements
and element i is the parsed content of the i-th file of the fixed list,
in list order. -/
theorem c1_output_is_ordered_array (fs : FS) (vs : List Json)
    (h : List.Forall₂ (fun f v => readParse fs f = Except.ok v) files vs) :
    vs.length = 8 ∧
    run fs = (Except.ok vs,
      [Event.write output_file (dumpVal (Json.arr vs) 0), Event.print summaryLine]) ∧
    ∀ i (h1 : i < files.length) (h2 : i < vs.length),
      readParse fs (files.get ⟨i, h1⟩) = Except.ok (vs.get ⟨i, h2⟩) := by
  have hm : merged fs = Except.ok vs := mergedList_of_forall₂ fs h
  refine ⟨h.length_eq.symm.trans rfl, ?_, ?_⟩
  · unfold run
    rw [hm]
  · intro i h1 h2
    exact h.get h1 h2

/-- Witness for C1: the filesystem on which every file holds the empty
list merges to the array of eight empty arrays, in order. -/
theorem c1_witness :
    List.Forall₂ (fun f v => readParse fsAllEmpty f = Except.ok v) files emptyVals ∧
    (emptyVals.length = 8 ∧
     run fsAllEmpty = (Except.ok emptyVals,
       [Event.write output_file (dumpVal (Json.arr emptyVals) 0), Event.print summaryLine]) ∧
     ∀ i (h1 : i < files.length) (h2 : i < emptyVals.length),
       readParse fsAllEmpty (files.get ⟨i, h1⟩) = Except.ok (emptyVals.get ⟨i, h2⟩)) := by
  have hf : List.Forall₂ (fun f v => readParse fsAllEmpty f = Except.ok v) files emptyVals := by
    unfold files emptyVals
    exact List.Forall₂.cons rfl (List.Forall₂.cons rfl (List.Forall₂.cons rfl
      (List.Forall₂.cons rfl (List.Forall₂.cons rfl (List.Forall₂.cons rfl
      (List.Forall₂.cons rfl (List.Forall₂.cons rfl List.Forall₂.nil)))))))
  exact ⟨hf, c1_output_is_ordered_array fsAllEmpty emptyVals hf⟩

/-- C2: each parsed document is appended whole as one distinct element:
when the files parse to arrays with item lists ls, the accumulator is
the list of those arrays, of the same length as the file list (a list of
lists, never their concatenation), and element i is the whole array of
the i-th item list, so an empty input list stays an empty element rather
than being dropped. -/
theorem c2_no_flattening (fs : FS) (ls : List (List Json))
    (h : List.Forall₂ (fun f l => readParse fs f = Except.ok (Json.arr l)) files ls) :
    merged fs = Except.ok (ls.map Json.arr) ∧
    (ls.map Json.arr).length = files.length ∧
    ∀ i (h1 : i < ls.length) (h2 : i < (ls.map Json.arr).length),
      (ls.map Json.arr).get ⟨i, h2⟩ = Json.arr (ls.get ⟨i, h1⟩) := by
  have h2 : List.Forall₂ (fun f v => readParse fs f = Except.ok v) files (ls.map Json.arr) :=
    List.forall₂_map_right_iff.mpr h
  refine ⟨mergedList_of_forall₂ fs h2, ?_, ?_⟩
  · rw [List.length_map]
    exact h.length_eq.symm
  · intro i h1 hm
    simp

/-- Witness for C2: with the fifth file holding the empty list and the
others singleton lists, the accumulator keeps all eight elements and the
fifth is the empty array. -/
theorem c2_witness :
    List.Forall₂ (fun f l => readParse fsOneEmpty f = Except.ok (Json.arr l)) files lsOne ∧
    (merged fsOneEmpty = Except.ok (lsOne.map Json.arr) ∧
     (lsOne.map Json.arr).length = files.length ∧
     ∀ i (h1 : i < lsOne.length) (h2 : i < (lsOne.map Json.arr).length),
       (lsOne.map Json.arr).get ⟨i, h2⟩ = Json.arr (lsOne.get ⟨i, h1⟩)) := by
  have hf : List.Forall₂ (fun f l => readParse fsOneEmpty f = Except.ok (Json.arr l)) files lsOne := by
    unfold files lsOne
    exact List.Forall₂.cons rfl (List.Forall₂.cons rfl (List.Forall₂.cons rfl
      (List.Forall₂.cons rfl (List.Forall₂.cons rfl (List.Forall₂.cons rfl
      (List.Forall₂.cons rfl (List.Forall₂.cons rfl List.Forall₂.nil)))))))
  exact ⟨hf, c2_no_flattening fsOneEmpty lsOne hf⟩

/-- C3: a faulting run produces no events at all: nothing is ever
written, so the output file is not created and any prior version of it
is left exactly as it was. -/
theorem c3_no_write_on_error (fs : FS) (e : RunError)
    (h : (run fs).1 = Except.error e) :
    (run fs).2 = [] ∧ applyEvents fs (run fs).2 = fs ∧
    applyEvents fs (run fs).2 output_file = fs output_file := by
  cases hm : merged fs with
  | error e1 =>
    have hrun : run fs = (Except.error e1, []) := by
      unfold run
      rw [hm]
    rw [hrun]
    exact ⟨rfl, rfl, rfl⟩
  | ok vs =>
    have hrun : run fs = (Except.ok vs,
        [Event.write output_file (dumpVal (Json.arr vs) 0), Event.print summaryLine]) := by
      unfold run
      rw [hm]
    rw [hrun] at h
    simp at h

/-- Witness for C3: on the empty filesystem the run faults on the first
file and the filesystem is untouched. -/
theorem c3_witness :
    (run fsNone).1 = Except.error (RunError.notFound "core-phrase-list-01-request.json") ∧
    ((run fsNone).2 = [] ∧ applyEvents fsNone (run fsNone).2 = fsNone ∧
     applyEvents fsNone (run fsNone).2 output_file = fsNone output_file) :=
  ⟨rfl, c3_no_write_on_error fsNone (RunError.notFound "core-phrase-list-01-request.json") rfl⟩

/-- C4: a run fails exactly when some input file is missing or holds
text that is not valid JSON, and every fault it can produce is either a
notFound naming a missing input file or a parseError naming an input
file with unparseable content — no other failure kind exists. -/
theorem c4_failure_characterization (fs : FS) :
    ((∃ e, (run fs).1 = Except.error e) ↔
      ∃ f, f ∈ files ∧ (fs f = none ∨ ∃ s, fs f = some s ∧ parseJson s = none)) ∧
    ∀ e, (run fs).1 = Except.error e →
      (∃ f, f ∈ files ∧ e = RunError.notFound f ∧ fs f = none) ∨
      (∃ f s, f ∈ files ∧ e = RunError.parseError f ∧ fs f = some s ∧ parseJson s = none) := by
  constructor
  · constructor
    · rintro ⟨e, he⟩
      rw [run_fst] at he
      obtain ⟨f, hmem, hrp⟩ := mergedList_error_mem fs he
      rcases readParse_error_cases fs hrp with ⟨_, hnone⟩ | ⟨s, _, hsome, hbad⟩
      · exact ⟨f, hmem, Or.inl hnone⟩
      · exact ⟨f, hmem, Or.inr ⟨s, hsome, hbad⟩⟩
    · rintro ⟨f, hmem, hbad⟩
      have hone : ∃ e0, readParse fs f = Except.error e0 := by
        rcases hbad with hnone | ⟨s, hsome, hps⟩
        · exact ⟨_, readParse_error_of_none fs hnone⟩
        · exact ⟨_, readParse_error_of_badparse fs hsome hps⟩
      obtain ⟨e0, he0⟩ := hone
      obtain ⟨e2, he2⟩ := mergedList_error_of_bad fs hmem he0
      refine ⟨e2, ?_⟩
      rw [run_fst]
      exact he2
  · intro e he
    rw [run_fst] at he
    obtain ⟨f, hmem, hrp⟩ := mergedList_error_mem fs he
    rcases readParse_error_cases fs hrp with ⟨heq, hnone⟩ | ⟨s, heq, hsome, hbad⟩
    · exact Or.inl ⟨f, hmem, heq, hnone⟩
    · exact Or.inr ⟨f, s, hmem, heq, hsome, hbad⟩

/-- Witness for C4: on the filesystem whose files all hold text that is
not JSON, the run faults, and its fault is a parseError naming an input
file. -/
theorem c4_witness :
    (∃ f, f ∈ files ∧
      (fsBadJson f = none ∨ ∃ s, fsBadJson f = some s ∧ parseJson s = none)) ∧
    ((∃ f, f ∈ files ∧
        RunError.parseError "core-phrase-list-01-request.json" = RunError.notFound f ∧
        fsBadJson f = none) ∨
     (∃ f s, f ∈ files ∧
        RunError.parseError "core-phrase-list-01-request.json" = RunError.parseError f ∧
        fsBadJson f = some s ∧ parseJson s = none)) :=
  ⟨(c4_failure_characterization fsBadJson).1.mp
      ⟨RunError.parseError "core-phrase-list-01-request.json", rfl⟩,
   (c4_failure_characterization fsBadJson).2
      (RunError.parseError "core-phrase-list-01-request.json") rfl⟩

/-- C5: on the concrete scenario of eight one-letter singleton inputs,
the run writes to the output path, once, the serialization of the array
of the eight parsed lists in order, with two-space indentation per
nesting level, and prints the summary; and a non-ASCII character is
serialized literally, never as an escape. -/
theorem c5_serialization_format :
    run fsLetters =
      (Except.ok
        [Json.arr [Json.str "a"], Json.arr [Json.str "b"], Json.arr [Json.str "c"],
         Json.arr [Json.str "d"], Json.arr [Json.str "e"], Json.arr [Json.str "f"],
         Json.arr [Json.str "g"], Json.arr [Json.str "h"]],
       [Event.write output_file
          "[\n  [\n    \"a\"\n  ],\n  [\n    \"b\"\n  ],\n  [\n    \"c\"\n  ],\n  [\n    \"d\"\n  ],\n  [\n    \"e\"\n  ],\n  [\n    \"f\"\n  ],\n  [\n    \"g\"\n  ],\n  [\n    \"h\"\n  ]\n]",
        Event.print "Merged 8 JSON files into core-phrase-list-all.json"]) ∧
    dumpVal (Json.str "canción") 0 = "\"canción\"" ∧
    indentStr 1 = "  " :=
  ⟨rfl, rfl, rfl⟩

/-- C6: the run again after applying the first run's effects is the
identical run: with unchanged inputs, the second output is byte for byte
the first, the result being a function of the input files alone. -/
theorem c6_idempotent (fs : FS) :
    run (applyEvents fs (run fs).2) = run fs := by
  cases hm : merged fs with
  | error e =>
    have hrun : run fs = (Except.error e, []) := by
      unfold run
      rw [hm]
    rw [hrun]
    exact hrun
  | ok vs =>
    have hrun : run fs = (Except.ok vs,
        [Event.write output_file (dumpVal (Json.arr vs) 0), Event.print summaryLine]) := by
      unfold run
      rw [hm]
    have happ : applyEvents fs (run fs).2 =
        writeFile fs output_file (dumpVal (Json.arr vs) 0) := by
      rw [hrun]
      rfl
    rw [happ, run_writeFile_output]

/-- C7: no shape validation happens: whatever JSON documents the eight
files parse to, of any top-level shapes, the accumulator and the result
are exactly those values, unchanged. -/
theorem c7_accepts_any_json (fs : FS) (vs : List Json)
    (h : List.Forall₂ (fun f v => readParse fs f = Except.ok v) files vs) :
    merged fs = Except.ok vs ∧ (run fs).1 = Except.ok vs := by
  have hm : merged fs = Except.ok vs := mergedList_of_forall₂ fs h
  refine ⟨hm, ?_⟩
  rw [run_fst]
  exact hm

/-- Witness for C7: a run over documents of assorted top-level shapes (a
number, null, an object, a lone string, a mixed array, a boolean, a
negative number, an empty array) succeeds and keeps them unchanged. -/
theorem c7_witness :
    List.Forall₂ (fun f v => readParse fsMixed f = Except.ok v) files mixedVals ∧
    (merged fsMixed = Except.ok mixedVals ∧ (run fsMixed).1 = Except.ok mixedVals) := by
  have hf : List.Forall₂ (fun f v => readParse fsMixed f = Except.ok v) files mixedVals := by
    unfold files mixedVals
    exact List.Forall₂.cons rfl (List.Forall₂.cons rfl (List.Forall₂.cons rfl
      (List.Forall₂.cons rfl (List.Forall₂.cons rfl (List.Forall₂.cons rfl
      (List.Forall₂.cons rfl (List.Forall₂.cons rfl List.Forall₂.nil)))))))
  exact ⟨hf, c7_accepts_any_json fsMixed mixedVals hf⟩

/-- C8: a successful run's trace is exactly one write followed by one
print; the printed line states the count eight — the length of the fixed
file list — and the output path, and it comes only after the write of
the output file. -/
theorem c8_summary_line (fs : FS) (vs : List Json)
    (h : (run fs).1 = Except.ok vs) :
    files.length = 8 ∧
    summaryLine = "Merged 8 JSON files into core-phrase-list-all.json" ∧
    (run fs).2 = [Event.write output_file (dumpVal (Json.arr vs) 0),
                  Event.print summaryLine] := by
  refine ⟨rfl, rfl, ?_⟩
  rw [run_fst] at h
  unfold run
  rw [h]

/-- Witness for C8: on the filesystem of empty lists the run succeeds
and its trace is the single write then the single summary print. -/
theorem c8_witness :
    (run fsAllEmpty).1 = Except.ok emptyVals ∧
    (files.length = 8 ∧
     summaryLine = "Merged 8 JSON files into core-phrase-list-all.json" ∧
     (run fsAllEmpty).2 = [Event.write output_file (dumpVal (Json.arr emptyVals) 0),
                           Event.print summaryLine]) :=
  ⟨rfl, c8_summary_line fsAllEmpty emptyVals rfl⟩

/-- C9: the output filename is distinct from all eight input filenames,
so the merger never reads its own output: the run is unaffected by
whatever the output file currently holds, in particular by whether a
previous run's output exists. -/
theorem c9_output_disjoint (fs : FS) (s : String) :
    output_file ∉ files ∧ run (writeFile fs output_file s) = run fs :=
  ⟨output_file_not_input, run_writeFile_output fs s⟩

/-- C10: once every input file reads and parses successfully, nothing
can fail afterwards: serialization is total on parsed values, the run
succeeds, and its trace holds the one complete serialized output, so the
output file is never left partially written. -/
theorem c10_serialize_total (fs : FS)
    (h : ∀ f ∈ files, ∃ v, readParse fs f = Except.ok v) :
    ∃ vs, run fs = (Except.ok vs,
      [Event.write output_file (dumpVal (Json.arr vs) 0), Event.print summaryLine]) := by
  obtain ⟨vs, hvs⟩ := mergedList_ok_of_forall fs files h
  refine ⟨vs, ?_⟩
  unfold run
  rw [show merged fs = Except.ok vs from hvs]

/-- Witness for C10: on the filesystem of empty lists every read-parse
succeeds and the run writes the complete output then prints. -/
theorem c10_witness :
    (∀ f ∈ files, ∃ v, readParse fsAllEmpty f = Except.ok v) ∧
    ∃ vs, run fsAllEmpty = (Except.ok vs,
      [Event.write output_file (dumpVal (Json.arr vs) 0), Event.print summaryLine]) := by
  have h : ∀ f ∈ files, ∃ v, readParse fsAllEmpty f = Except.ok v :=
    fun f _ => ⟨Json.arr [], rfl⟩
  exact ⟨h, c10_serialize_total fsAllEmpty h⟩
